import Mathlib

/-!
Verification of `text_analyzer/main.py`.

The text read from a file is embedded as a `List Char` (Python iterates a
`str` as a sequence of code points).  The dictionary `char_freq` is embedded
as an association list in insertion order, which is exactly the iteration
order Python guarantees for `dict`.  The command-line layer (`__main__`) is
embedded as a function from a small file-system model and the parsed flags
to the list of lines printed on stdout, together with a flag recording
whether the run terminated normally or raised an uncaught exception.
-/

set_option autoImplicit false

namespace TextAnalyzer

/-- `matchesAt pat s` : the pattern `pat` occurs at the start of `s`
(the prefix test used by Python's substring search). -/
def matchesAt : List Char → List Char → Bool
  | [], _ => true
  | _ :: _, [] => false
  | p :: ps, c :: cs => p = c && matchesAt ps cs

/-- Left-to-right scan for `countSub`.  `skip` is the number of characters
still belonging to the previously matched occurrence; while it is positive
the scanner moves on without testing for a match, which realises the
"resume immediately after the match" (non-overlapping) rule. -/
def countSubAux : List Char → List Char → Nat → Nat
  | [], _, _ => 0
  | _ :: rest, pat, n + 1 => countSubAux rest pat n
  | c :: rest, pat, 0 =>
      if matchesAt pat (c :: rest) then
        countSubAux rest pat (pat.length - 1) + 1
      else
        countSubAux rest pat 0

/-- Python's `str.count(pat)` for a non-empty pattern `pat`: the number of
non-overlapping occurrences of `pat` in `s`, scanning left to right and
resuming immediately after each match.  Embeds `text.count('\n\n')` and
`text.count('\n')` from `analyze_text` (src/text_analyzer/main.py:13-14). -/
def countSub (s pat : List Char) : Nat :=
  countSubAux s pat 0

/-- One step of the frequency accumulation
`char_freq[char] = char_freq.get(char, 0) + 1`
(src/text_analyzer/main.py:18) on the association-list embedding of the
dict: bump the entry for `c` if present, otherwise append `(c, 1)` at the
end (Python dicts keep insertion order). -/
def updateFreq : List (Char × Nat) → Char → List (Char × Nat)
  | [], c => [(c, 1)]
  | (k, v) :: rest, c =>
      if k = c then (k, v + 1) :: rest else (k, v) :: updateFreq rest c

/-- The frequency loop `for char in text: ...`
(src/text_analyzer/main.py:16-18). -/
def charFreq (t : List Char) : List (Char × Nat) :=
  t.foldl updateFreq []

/-- The record returned by `analyze_text` on a successfully read text
(src/text_analyzer/main.py:20-25). -/
structure TextStatistics where
  chars : Nat
  lines : Nat
  empty_lines : Nat
  freq : List (Char × Nat)
deriving DecidableEq

/-- The statistics computed by `analyze_text` from the text
(src/text_analyzer/main.py:12-25):
`num_chars = len(text)`, `num_empty_lines = text.count('\n\n')`,
`num_lines = text.count('\n') + 1`, and the frequency dict. -/
def analyze (text : List Char) : TextStatistics :=
  { chars := text.length
  , lines := countSub text ['\n'] + 1
  , empty_lines := countSub text ['\n', '\n']
  , freq := charFreq text }

/-- A file system: a finite association of paths to decoded contents.
`os.path.exists` / `open` succeed exactly on the listed paths. -/
def lookupFile : List (String × List Char) → String → Option (List Char)
  | [], _ => none
  | (p, content) :: rest, q =>
      if p = q then some content else lookupFile rest q

/-- `analyze_text(file_path)` (src/text_analyzer/main.py:4-25): on a missing
file it prints `File not found: <file_path>` and returns `None`; otherwise
it reads the file and returns the statistics record, printing nothing.
Result: (lines printed, returned value). -/
def analyze_text (fs : List (String × List Char)) (file_path : String) :
    List String × Option TextStatistics :=
  match lookupFile fs file_path with
  | none => (["File not found: " ++ file_path], none)
  | some text => ([], some (analyze text))

/-- The parsed command-line arguments (src/text_analyzer/main.py:29-36). -/
structure Args where
  file_path : String
  count_lines : Bool
  count_chars : Bool
  count_empty_lines : Bool
  count_freq : Bool

def fmtCharsOut (s : TextStatistics) : String :=
  "Number of characters: " ++ Nat.repr s.chars

def fmtLinesOut (s : TextStatistics) : String :=
  "Number of lines: " ++ Nat.repr s.lines

def fmtEmptyOut (s : TextStatistics) : String :=
  "Number of empty lines: " ++ Nat.repr s.empty_lines

/-- The per-character lines of the frequency table:
`'<char>': <count>` (src/text_analyzer/main.py:51-52). -/
def freqLines (s : TextStatistics) : List String :=
  s.freq.map (fun p => "\x27" ++ String.singleton p.1 ++ "\x27: " ++ Nat.repr p.2)

/-- The `__main__` block after argument parsing
(src/text_analyzer/main.py:38-60): run `analyze_text`, then print the
sections selected by the flags, or all four sections when no flag is given.
Returns the stdout lines and `true` for normal termination.  When
`analyze_text` returned `None`, the run raises
`TypeError: 'NoneType' object is not subscriptable` at the first subscript
`stats[...]` it reaches, and the returned flag is `false`.  The blocks run
in source order, so the first enabled one among `--count-lines`,
`--count-chars`, `--count-empty-lines` raises inside its f-string before
printing anything; the `--count-freq` block first executes the plain
`print("Character frequency:")` (src/text_analyzer/main.py:50) and only
then subscripts `stats["freq"]` in its loop header, so on the path where
`--count-freq` is the first enabled flag that header line is printed before
the crash; the flagless default branch raises inside its first f-string. -/
def main_run (fs : List (String × List Char)) (args : Args) :
    List String × Bool :=
  let res := analyze_text fs args.file_path
  match res.2 with
  | none =>
      if args.count_lines then (res.1, false)
      else if args.count_chars then (res.1, false)
      else if args.count_empty_lines then (res.1, false)
      else if args.count_freq then (res.1 ++ ["Character frequency:"], false)
      else (res.1, false)
  | some s =>
      let out1 := if args.count_lines then [fmtLinesOut s] else []
      let out2 := if args.count_chars then [fmtCharsOut s] else []
      let out3 := if args.count_empty_lines then [fmtEmptyOut s] else []
      let out4 := if args.count_freq then "Character frequency:" :: freqLines s else []
      let outDefault :=
        if args.count_lines || args.count_chars || args.count_empty_lines || args.count_freq
        then []
        else fmtCharsOut s :: fmtLinesOut s :: fmtEmptyOut s ::
             "Character frequency:" :: freqLines s
      (res.1 ++ out1 ++ out2 ++ out3 ++ out4 ++ outDefault, true)

/-- Modelled from the spec (§4.2, §9): the non-overlapping scan for the
two-character substring `\n\n` — after matching one occurrence, scanning
resumes from the character immediately following the match, i.e. after the
second `\n`. -/
def specEmptyLineScan : List Char → Nat
  | [] => 0
  | [_] => 0
  | a :: b :: rest =>
      if a = '\n' ∧ b = '\n' then specEmptyLineScan rest + 1
      else specEmptyLineScan (b :: rest)

/-- Modelled from the spec (§3): the distinct characters of the text in
first-occurrence order. -/
def firstOccs (t : List Char) : List Char :=
  t.foldl (fun acc c => if c ∈ acc then acc else acc ++ [c]) []

/-- The keys of the frequency map, in iteration (= insertion) order. -/
def keys (m : List (Char × Nat)) : List Char :=
  m.map Prod.fst

/-- `sum(frequency.values())`. -/
def sumVals (m : List (Char × Nat)) : Nat :=
  (m.map Prod.snd).sum

example : analyze ('h' :: 'i' :: '\n' :: ['w', 'o', 'r', 'l', 'd']) =
    ⟨8, 2, 0, [('h', 1), ('i', 1), ('\n', 1), ('w', 1), ('o', 1), ('r', 1), ('l', 1), ('d', 1)]⟩ := by
  decide

example : (analyze ('a' :: '\n' :: '\n' :: '\n' :: ['b'])).empty_lines = 1 := by
  decide

/-! ### Counting lemmas -/

theorem countSub_two_newlines (t : List Char) :
    countSub t ['\n', '\n'] = specEmptyLineScan t := by
  induction t using specEmptyLineScan.induct with
  | case1 => rfl
  | case2 a => simp [countSub, countSubAux, matchesAt, specEmptyLineScan]
  | case3 a b rest h ih =>
      obtain ⟨ha, hb⟩ := h
      subst ha hb
      simp [countSub, countSubAux, matchesAt, specEmptyLineScan] at ih ⊢
      omega
  | case4 a b rest h ih =>
      have hm : matchesAt ['\n', '\n'] (a :: b :: rest) = false := by
        simp [matchesAt]
        intro h1 h2
        exact h ⟨h1.symm, h2.symm⟩
      simp [countSub, countSubAux, hm, specEmptyLineScan, h] at ih ⊢
      exact ih

theorem countSub_singleton (a : Char) (t : List Char) :
    countSub t [a] = t.count a := by
  induction t with
  | nil => rfl
  | cons c rest ih =>
      by_cases h : a = c
      · subst h
        simpa [countSub, countSubAux, matchesAt, List.count_cons] using ih
      · simp [countSub, countSubAux, matchesAt, h, List.count_cons, Ne.symm h] at ih ⊢
        exact ih

theorem two_mul_specEmptyLineScan_le (t : List Char) :
    2 * specEmptyLineScan t ≤ t.count '\n' := by
  induction t using specEmptyLineScan.induct with
  | case1 => simp [specEmptyLineScan]
  | case2 a => simp [specEmptyLineScan]
  | case3 a b rest h ih =>
      obtain ⟨ha, hb⟩ := h
      subst ha hb
      simp [specEmptyLineScan, List.count_cons] at ih ⊢
      omega
  | case4 a b rest h ih =>
      simp only [specEmptyLineScan]
      rw [if_neg h]
      have hb : (b :: rest).count '\n' ≤ (a :: b :: rest).count '\n' := by
        simp [List.count_cons]
      exact le_trans ih hb

/-! ### Frequency-map lemmas -/

theorem sumVals_updateFreq (m : List (Char × Nat)) (c : Char) :
    sumVals (updateFreq m c) = sumVals m + 1 := by
  induction m with
  | nil => rfl
  | cons p rest ih =>
      obtain ⟨k, v⟩ := p
      by_cases h : k = c
      · simp [updateFreq, h, sumVals]
        omega
      · simp [updateFreq, h, sumVals] at ih ⊢
        omega

theorem keys_updateFreq (m : List (Char × Nat)) (c : Char) :
    keys (updateFreq m c) = if c ∈ keys m then keys m else keys m ++ [c] := by
  induction m with
  | nil => simp [updateFreq, keys]
  | cons p rest ih =>
      obtain ⟨k, v⟩ := p
      by_cases h : k = c
      · simp [updateFreq, h, keys]
      · simp [updateFreq, h, keys, Ne.symm h] at ih ⊢
        split at ih <;> split <;> simp_all

theorem foldl_keys (t : List Char) :
    ∀ m : List (Char × Nat),
      keys (t.foldl updateFreq m) =
        t.foldl (fun acc c => if c ∈ acc then acc else acc ++ [c]) (keys m) := by
  induction t with
  | nil => intro m; rfl
  | cons c rest ih =>
      intro m
      simp only [List.foldl_cons]
      rw [ih, keys_updateFreq]

theorem keys_charFreq (t : List Char) : keys (charFreq t) = firstOccs t := by
  simpa [charFreq, firstOccs, keys] using foldl_keys t []

theorem foldl_sumVals (t : List Char) :
    ∀ m : List (Char × Nat),
      sumVals (t.foldl updateFreq m) = sumVals m + t.length := by
  induction t with
  | nil => intro m; simp
  | cons c rest ih =>
      intro m
      simp only [List.foldl_cons, List.length_cons]
      rw [ih, sumVals_updateFreq]
      omega

theorem sumVals_charFreq (t : List Char) : sumVals (charFreq t) = t.length := by
  simpa [charFreq, sumVals] using foldl_sumVals t []

theorem mem_foldl_firstOccs (t : List Char) :
    ∀ (acc : List Char) (c : Char),
      (c ∈ t.foldl (fun acc c => if c ∈ acc then acc else acc ++ [c]) acc) ↔
        c ∈ acc ∨ c ∈ t := by
  induction t with
  | nil => simp
  | cons d rest ih =>
      intro acc c
      simp only [List.foldl_cons, List.mem_cons]
      rw [ih]
      by_cases hd : d ∈ acc
      · simp [hd]
        constructor
        · tauto
        · rintro (h | h | h) <;> try tauto
          subst h; tauto
      · simp [hd, List.mem_append]
        tauto

theorem mem_firstOccs (t : List Char) (c : Char) : c ∈ firstOccs t ↔ c ∈ t := by
  simpa [firstOccs] using mem_foldl_firstOccs t [] c

theorem one_le_updateFreq (m : List (Char × Nat)) (c : Char)
    (hm : ∀ p ∈ m, 1 ≤ p.2) : ∀ p ∈ updateFreq m c, 1 ≤ p.2 := by
  induction m with
  | nil => simp [updateFreq]
  | cons q rest ih =>
      obtain ⟨k, v⟩ := q
      by_cases h : k = c
      · simp [updateFreq, h]
        intro a b hab
        exact hm (a, b) (List.mem_cons_of_mem _ hab)
      · simp only [updateFreq, if_neg h]
        intro p hp
        rcases List.mem_cons.mp hp with h1 | h1
        · subst h1; exact hm (k, v) (List.mem_cons_self _ _)
        · exact ih (fun q hq => hm q (List.mem_cons_of_mem _ hq)) p h1

theorem one_le_foldl (t : List Char) :
    ∀ m : List (Char × Nat), (∀ p ∈ m, 1 ≤ p.2) →
      ∀ p ∈ t.foldl updateFreq m, 1 ≤ p.2 := by
  induction t with
  | nil => intro m hm; simpa using hm
  | cons c rest ih =>
      intro m hm
      simp only [List.foldl_cons]
      exact ih _ (one_le_updateFreq m c hm)

theorem one_le_charFreq (t : List Char) : ∀ p ∈ charFreq t, 1 ≤ p.2 :=
  one_le_foldl t [] (by simp)

/-! ### Claims -/

/-- C1: on a missing file the program prints
`File not found: <file_path>`, and then — contrary to the claim — no run
terminates normally: `__main__` subscripts the `None` returned by
`analyze_text` and raises `TypeError` (`false` in the model) for every
combination of flags.  Moreover, when `--count-freq` is the only flag given
the claim's "no further output" also fails: the header
`Character frequency:` is printed before the crash; on every other flag
combination the message is the only stdout line. -/
theorem file_not_found_crashes :
    ∀ a b c d : Bool,
      main_run [] ⟨"missing.txt", a, b, c, d⟩ =
        (if a || b || c || !d then ["File not found: missing.txt"]
         else ["File not found: missing.txt", "Character frequency:"],
         false) := by
  intro a b c d
  cases a <;> cases b <;> cases c <;> cases d <;> rfl

/-- C2 counterexample: with flags `--count-chars --count-lines` on the file
content `"hi\nworld"`, the output is NOT `Number of characters: 8` followed
by `Number of lines: 2` — the `__main__` block prints the lines section
first (src/text_analyzer/main.py:40-44). -/
theorem flags_output_not_chars_first :
    (main_run [("input.txt", 'h' :: 'i' :: '\n' :: ['w', 'o', 'r', 'l', 'd'])]
        ⟨"input.txt", true, true, false, false⟩).1 ≠
      ["Number of characters: 8", "Number of lines: 2"] := by
  decide

/-- C2 (amended): with flags `--count-chars --count-lines` on the file
content `"hi\nworld"`, the program prints exactly two lines,
`Number of lines: 2` and then `Number of characters: 8`, and terminates
normally. -/
theorem flags_output_lines_then_chars :
    main_run [("input.txt", 'h' :: 'i' :: '\n' :: ['w', 'o', 'r', 'l', 'd'])]
        ⟨"input.txt", true, true, false, false⟩ =
      (["Number of lines: 2", "Number of characters: 8"], true) := by
  decide

/-- C3: for every text, `emptyLineCount` is the non-overlapping substring
count of `"\n\n"` (scanning resumes after the second newline of a match),
and on `"a\n\n\nb"` it is exactly 1. -/
theorem empty_lines_nonoverlapping :
    (∀ t : List Char, (analyze t).empty_lines = specEmptyLineScan t) ∧
      (analyze ('a' :: '\n' :: '\n' :: '\n' :: ['b'])).empty_lines = 1 :=
  ⟨fun t => countSub_two_newlines t, by decide⟩

/-- C4: for every text, `lineCount` is the number of `'\n'` characters
plus one; a text without newlines — the empty text included — has
`lineCount` 1. -/
theorem line_count_formula :
    (∀ t : List Char, (analyze t).lines = t.count '\n' + 1) ∧
      (∀ t : List Char, t.count '\n' = 0 → (analyze t).lines = 1) ∧
      (analyze []).lines = 1 := by
  refine ⟨fun t => ?_, fun t h => ?_, by decide⟩
  · show countSub t ['\n'] + 1 = _
    rw [countSub_singleton]
  · show countSub t ['\n'] + 1 = 1
    rw [countSub_singleton, h]

/-- C4 witness: the formula instantiated on the newline-free text
`"abc"`. -/
theorem line_count_formula_witness :
    ('a' :: 'b' :: ['c']).count '\n' = 0 ∧ (analyze ('a' :: 'b' :: ['c'])).lines = 1 :=
  ⟨by decide, line_count_formula.2.1 ('a' :: 'b' :: ['c']) (by decide)⟩

/-- C5: for every text, `characterCount` is the code-point length of the
text. -/
theorem char_count_is_length :
    ∀ t : List Char, (analyze t).chars = t.length :=
  fun _ => rfl

/-- C6: for every text, the character count equals the sum of the frequency
values, the frequency map's keys are exactly the characters occurring in
the text, and they appear in first-occurrence order. -/
theorem freq_invariants :
    ∀ t : List Char,
      sumVals ((analyze t).freq) = (analyze t).chars ∧
        (∀ c : Char, c ∈ keys ((analyze t).freq) ↔ c ∈ t) ∧
        keys ((analyze t).freq) = firstOccs t := by
  intro t
  refine ⟨sumVals_charFreq t, fun c => ?_, keys_charFreq t⟩
  show c ∈ keys (charFreq t) ↔ c ∈ t
  rw [keys_charFreq]
  exact mem_firstOccs t c

/-- C7: the empty text yields characterCount 0, lineCount 1,
emptyLineCount 0 and an empty frequency map. -/
theorem analyze_empty :
    analyze [] = ⟨0, 1, 0, []⟩ := by
  decide

/-- C8: the analyzer is deterministic — equal input texts produce equal
records, the frequency map (and hence its insertion/iteration order)
included. -/
theorem analyze_deterministic :
    ∀ t₁ t₂ : List Char, t₁ = t₂ →
      analyze t₁ = analyze t₂ ∧ (analyze t₁).freq = (analyze t₂).freq := by
  intro t₁ t₂ h
  subst h
  exact ⟨rfl, rfl⟩

/-- C8 witness: determinism instantiated on the text `"ab"`. -/
theorem analyze_deterministic_witness :
    analyze ('a' :: ['b']) = analyze ('a' :: ['b']) ∧
      (analyze ('a' :: ['b'])).freq = (analyze ('a' :: ['b'])).freq :=
  analyze_deterministic ('a' :: ['b']) ('a' :: ['b']) rfl

/-- C9: every count stored in the frequency map is at least 1. -/
theorem freq_values_pos :
    ∀ (t : List Char), ∀ p ∈ (analyze t).freq, 1 ≤ p.2 :=
  fun t => one_le_charFreq t

/-- C9 witness: on the text `"a"` the entry `('a', 1)` is in the map and
its count is at least 1. -/
theorem freq_values_pos_witness :
    ('a', 1) ∈ (analyze ['a']).freq ∧ 1 ≤ (('a', 1) : Char × Nat).2 :=
  ⟨by decide, freq_values_pos ['a'] ('a', 1) (by decide)⟩

/-- C10: twice the empty-line count never exceeds `lineCount - 1`
(the number of newline characters), and `lineCount` is at most
`characterCount + 1`. -/
theorem count_inequalities :
    ∀ t : List Char,
      2 * (analyze t).empty_lines ≤ (analyze t).lines - 1 ∧
        (analyze t).lines ≤ (analyze t).chars + 1 := by
  intro t
  have h1 := two_mul_specEmptyLineScan_le t
  have h2 : t.count '\n' ≤ t.length := List.count_le_length _ _
  have e1 : (analyze t).empty_lines = specEmptyLineScan t := countSub_two_newlines t
  have e2 : (analyze t).lines = t.count '\n' + 1 := by
    show countSub t ['\n'] + 1 = _
    rw [countSub_singleton]
  have e3 : (analyze t).chars = t.length := rfl
  omega

end TextAnalyzer
